import Mathlib

/-
Verification development for the travel-diary chibi pipeline (server.js).

The shallow embedding below translates the pipeline functions of server.js
into Lean definitions.  External effects (the generative-model service, the
file system, the sharp image library) are passed in as explicit oracle
parameters; everything the repository itself computes (string parsing,
dedup, retry/fallback control flow, the flood-fill mask, alpha application)
is embedded as executable Lean code.

JavaScript string conventions: strings here are Lean `String`s (lists of
characters); `String.prototype.includes`, `split`, `trim`, `toLowerCase`,
`substring` are re-implemented below on character lists with the exact JS
semantics for the ASCII inputs the pipeline manipulates (JS counts UTF-16
units where Lean counts characters; the two agree on the code's delimiters
and sentinels, which are all ASCII).
-/

namespace TravelDiary

/-- JS `needle.isPrefixOf`-style containment scan: `subAt needle hay` is
`hay.includes(needle)` from JS, scanning every suffix of `hay`. -/
def subAt (needle : List Char) : List Char → Bool
  | [] => needle.isPrefixOf []
  | c :: t => needle.isPrefixOf (c :: t) || subAt needle t

/-- JS `hay.includes(needle)` on Lean strings. -/
def strIncludes (hay needle : String) : Bool :=
  subAt needle.data hay.data

/-- Whitespace predicate used by JS `String.prototype.trim`. -/
def isWS (c : Char) : Bool := c.isWhitespace

/-- JS `s.trim()` on character lists: drop whitespace from both ends. -/
def jsTrimL (l : List Char) : List Char :=
  ((l.dropWhile isWS).reverse.dropWhile isWS).reverse

/-- JS `s.trim()` on Lean strings. -/
def jsTrim (s : String) : String := String.mk (jsTrimL s.data)

/-- Find the first occurrence of `delim` in a character list; returns the
text before the occurrence and the text after it. -/
def findSplit (delim : List Char) : List Char → Option (List Char × List Char)
  | [] => if delim.isPrefixOf ([] : List Char) then some ([], []) else none
  | c :: t =>
    if delim.isPrefixOf (c :: t) then some ([], (c :: t).drop delim.length)
    else
      match findSplit delim t with
      | some (pre, post) => some (c :: pre, post)
      | none => none

/-- Fueled worker for JS `s.split(delim)`. For a non-empty delimiter each
recursive step strictly shortens the remaining text, so fuel `s.length`
(supplied by `jsSplitL`) is never exhausted. -/
def jsSplitFuel (delim : List Char) : Nat → List Char → List (List Char)
  | 0, s => [s]
  | fuel + 1, s =>
    match findSplit delim s with
    | none => [s]
    | some (pre, post) => pre :: jsSplitFuel delim fuel post

/-- JS `s.split(delim)` on character lists (non-empty delimiter). -/
def jsSplitL (delim s : List Char) : List (List Char) :=
  jsSplitFuel delim s.length s

/-- JS `s.toLowerCase()` restricted to the per-character lowering Lean
provides (agrees with JS on ASCII). -/
def jsLower (s : String) : String := String.mk (s.data.map Char.toLower)

/-- JS `s.substring(0, n)` on Lean strings. -/
def jsSubstring0 (s : String) (n : Nat) : String := String.mk (s.data.take n)

/- ===== Person Scanner: per-photo parser (server.js `_describePersons`) ===== -/

/-- The paragraph delimiter the analysis prompt asks the model to emit. -/
def DELIM : String := "---PERSON---"

/-- Parsing step of server.js `_describePersons` (lines 131-138): trim the
model response; the `NO_PERSON` sentinel or a short response yields no
descriptions; otherwise split on the delimiter, trim the fragments, keep the
fragments longer than 20 characters, and fall back to the whole response as
a single description when the split kept nothing but the response itself
exceeds 20 characters. -/
def parsePersonsText (raw : String) : List String :=
  let text := jsTrim raw
  if strIncludes text "NO_PERSON" || decide (text.data.length < 20) then []
  else
    let persons :=
      (((jsSplitL DELIM.data text.data).map jsTrimL).filter
        (fun f => decide (20 < f.length))).map String.mk
    if persons.isEmpty && decide (20 < text.data.length) then [text] else persons

/-- server.js `_describePersons`: the model call is an oracle; `none` models
the call throwing (the catch branch returns `[]`), `some t` models a
response whose `.text` is `t`. -/
def describePersonsResult (resp : Option String) : List String :=
  match resp with
  | none => []
  | some t => parsePersonsText t

/- ===== Person Scanner: roster merge (server.js `scanPersonsInPhotos`) ===== -/

/-- The `{photoIndex, photoPath, personLabel, description}` objects the
scanner pushes onto `allPersons`. -/
structure Person where
  photoIndex : Nat
  photoPath : String
  personLabel : String
  description : String
deriving DecidableEq, Repr

/-- One entry of the `imagePaths` argument of `scanPersonsInPhotos`: the
file either does not exist on disk (the photo is skipped) or exists and the
model analysis call resolves to `resp` (as in `describePersonsResult`). -/
inductive PhotoIn where
  | missing (path : String)
  | present (path : String) (resp : Option String)
deriving DecidableEq, Repr

/-- Roster cap of the scanner (server.js line 68). -/
def MAX_PERSONS : Nat := 3

/-- Token-overlap count of the dedup heuristic (server.js lines 100-102):
the tokens of `a` (split on single spaces) that occur as substrings of `b`. -/
def tokenOverlap (a b : String) : Nat :=
  ((jsSplitL [' '] a.data).filter (fun w => subAt w b.data)).length

/-- server.js lines 99-104: the new description `d` is a duplicate when some
already-accepted description shares more than 5 first-60-chars lower-cased
tokens with it, where `a` is the existing description and `b` the new one
and the counted tokens are those of `a` occurring inside `b`. -/
def isDuplicateOf (allPersons : List Person) (d : String) : Bool :=
  allPersons.any fun existing =>
    let a := jsLower (jsSubstring0 existing.description 60)
    let b := jsLower (jsSubstring0 d 60)
    decide (5 < tokenOverlap a b)

/-- Inner loop of the multi-photo branch (server.js lines 96-108): fold the
descriptions of one photo into the accumulated roster, stopping at
`MAX_PERSONS` and skipping duplicates; accepted persons are labeled
`person{n}` by acceptance order. -/
def addPersons (photoIdx : Nat) (photoPath : String) :
    List Person → List String → List Person
  | acc, [] => acc
  | acc, d :: ds =>
    if MAX_PERSONS ≤ acc.length then acc
    else if isDuplicateOf acc d then addPersons photoIdx photoPath acc ds
    else
      addPersons photoIdx photoPath
        (acc ++ [⟨photoIdx, photoPath, "person" ++ toString (acc.length + 1), d⟩]) ds

/-- Outer loop of the multi-photo branch (server.js lines 91-111): scan the
valid photos in order, breaking once the roster reaches `MAX_PERSONS`.
(The 1.5s pacing delay between photos has no effect on the result.) -/
def scanLoop : List Person → List (Nat × String × Option String) → List Person
  | acc, [] => acc
  | acc, (idx, pth, resp) :: rest =>
    if MAX_PERSONS ≤ acc.length then acc
    else scanLoop (addPersons idx pth acc (describePersonsResult resp)) rest

/-- server.js lines 71-80: keep the photos whose file exists, remembering
their index in the input list and their (un-normalized) path. -/
def validPhotosOf (photos : List PhotoIn) : List (Nat × String × Option String) :=
  photos.enum.filterMap fun ip =>
    match ip.2 with
    | .missing _ => none
    | .present pth resp => some (ip.1, pth, resp)

/-- server.js `scanPersonsInPhotos` (lines 67-114): no valid photo yields an
empty roster; exactly one valid photo takes its description list directly
(capped at `MAX_PERSONS`, labeled sequentially); otherwise the photos are
merged with dedup by `scanLoop`. -/
def scanPersonsInPhotos (photos : List PhotoIn) : List Person :=
  match validPhotosOf photos with
  | [] => []
  | [(idx, pth, resp)] =>
    let ds := describePersonsResult resp
    if ds.isEmpty then []
    else
      (ds.take MAX_PERSONS).enum.map fun id =>
        ⟨idx, pth, "person" ++ toString (id.1 + 1), id.2⟩
  | valid => scanLoop [] valid

/- ===== Pipeline Orchestrator (server.js `generateAllChibis`) ===== -/

/-- Loop of server.js lines 339-347: for the i-th roster entry invoke the
synthesizer (`genOne`, standing for the effectful `generateSingleChibi`)
with person index `i + 1`, pushing only non-null results.  (The 3s pacing
delay between persons has no effect on the result.) -/
def chibiLoop (genOne : String → String → String → Nat → Option String)
    (recordId : String) : Nat → List Person → List String
  | _, [] => []
  | i, p :: ps =>
    match genOne p.photoPath p.description recordId (i + 1) with
    | some pth => pth :: chibiLoop genOne recordId (i + 1) ps
    | none => chibiLoop genOne recordId (i + 1) ps

/-- server.js `generateAllChibis` (lines 327-350): scan the photos; an empty
roster returns `[]` immediately; otherwise collect the non-null synthesizer
results in roster order. -/
def generateAllChibis (genOne : String → String → String → Nat → Option String)
    (imagePaths : List PhotoIn) (recordId : String) : List String :=
  let persons := scanPersonsInPhotos imagePaths
  if persons.length = 0 then [] else chibiLoop genOne recordId 0 persons

/- ===== Resilient Invoker (server.js `callGemini`) ===== -/

/-- The error object a failed `generateContent` call rejects with: its
(optional) HTTP status and its message. -/
structure GemError where
  status : Option Nat
  msg : String
deriving DecidableEq, Repr

/-- Outcome of one `genAI.models.generateContent({model, contents})` call:
either a response or a thrown error. -/
inductive AttemptOutcome (α : Type) where
  | ok (resp : α)
  | fail (e : GemError)
deriving DecidableEq

/-- Observable events of a `callGemini` run: an attempt of a given model at
a given per-tier attempt number, or a backoff sleep in milliseconds. -/
inductive CallEvent where
  | att (model : String) (attempt : Nat)
  | slp (ms : Nat)
deriving DecidableEq, Repr

/-- The fallback error thrown when `lastErr` is still null (server.js
line 45). -/
def defaultGemError : GemError := ⟨none, "所有模型均不可用，请稍后再试"⟩

/-- server.js `callGemini` (lines 21-46), with the model service as the
oracle `svc` (model name and per-tier attempt number decide the outcome)
and the tier list as a parameter (the source iterates the constant
`MODELS`).  Per tier: a success returns at once; a 429 failure on the first
attempt sleeps 2000ms and retries the same tier; a 429 failure on the
second attempt, or any non-429 failure, abandons the tier.  The run returns
the response or the last observed error, together with the event trace. -/
def callGeminiGo {α : Type} (svc : String → Nat → AttemptOutcome α) :
    List String → Option GemError → Except GemError α × List CallEvent
  | [], lastErr => (.error (lastErr.getD defaultGemError), [])
  | m :: rest, _ =>
    match svc m 0 with
    | .ok r => (.ok r, [.att m 0])
    | .fail e =>
      if e.status = some 429 then
        match svc m 1 with
        | .ok r => (.ok r, [.att m 0, .slp 2000, .att m 1])
        | .fail e' =>
          let next := callGeminiGo svc rest (some e')
          (next.1, [.att m 0, .slp 2000, .att m 1] ++ next.2)
      else
        let next := callGeminiGo svc rest (some e)
        (next.1, .att m 0 :: next.2)

/-- The static tier list of server.js line 18. -/
def MODELS : List String :=
  ["gemini-2.0-flash", "gemini-2.0-flash-lite", "gemma-3-27b-it", "gemma-3-12b-it"]

/-- server.js `callGemini` applied to the process-wide `MODELS` list. -/
def callGemini {α : Type} (svc : String → Nat → AttemptOutcome α) :
    Except GemError α × List CallEvent :=
  callGeminiGo svc MODELS none

/-- Number of attempts against model `m` recorded in a trace. -/
def countAtt (tr : List CallEvent) (m : String) : Nat :=
  (tr.filter fun e =>
    match e with
    | .att m' _ => decide (m' = m)
    | .slp _ => false).length

/- ===== Chibi Synthesizer (server.js `generateSingleChibi`) ===== -/

/-- One part of a generation response: optional inline image bytes (already
base64-decoded, modeled as a byte list) and optional text. -/
structure GenPart where
  inline : Option (List Nat)
  txt : Option String
deriving DecidableEq, Repr

/-- Outcome of one image-generation attempt: the call threw (with an
optional HTTP status), or resolved; `resp none` models a response with no
usable `candidates[0].content`, `resp (some parts)` models
`candidates[0].content.parts` (`parts || []` folded in). -/
inductive GenAttempt where
  | threw (status : Option Nat)
  | resp (parts : Option (List GenPart))
deriving DecidableEq

/-- Retry budget of `generateSingleChibi` (server.js line 156). -/
def MAX_RETRIES : Nat := 2

/-- The deterministic output filename of server.js line 209. -/
def chibiFilename (recordId : String) (personIndex : Nat) : String :=
  "chibi-" ++ recordId ++ "-" ++ toString personIndex ++ ".png"

/-- Parts scan of server.js lines 201-215: the first part carrying inline
data of at least 5000 bytes is accepted (the segmented image is written to
`UPLOADS_DIR` under `chibiFilename` — a file-system effect outside this
embedding — and the public path is returned); smaller payloads are
skipped. -/
def firstImagePart (recordId : String) (personIndex : Nat) :
    List GenPart → Option String
  | [] => none
  | p :: ps =>
    match p.inline with
    | some dat =>
      if dat.length < 5000 then firstImagePart recordId personIndex ps
      else some ("/uploads/" ++ chibiFilename recordId personIndex)
    | none => firstImagePart recordId personIndex ps

/-- One attempt body of server.js lines 185-221: a thrown call or a
response without candidates yields nothing; otherwise scan the parts. -/
def tryChibiOnce (recordId : String) (personIndex : Nat) (g : GenAttempt) :
    Option String :=
  match g with
  | .threw _ => none
  | .resp none => none
  | .resp (some parts) => firstImagePart recordId personIndex parts

/-- The attempt loop of server.js lines 184-223 over the listed attempt
numbers, also counting the attempts actually made.  (The 3s inter-attempt
and 4s rate-limit sleeps have no effect on the result.) -/
def chibiAttemptLoop (oracle : Nat → GenAttempt) (recordId : String)
    (personIndex : Nat) : List Nat → Option String × Nat
  | [] => (none, 0)
  | a :: rest =>
    match tryChibiOnce recordId personIndex (oracle a) with
    | some pth => (some pth, 1)
    | none =>
      let next := chibiAttemptLoop oracle recordId personIndex rest
      (next.1, next.2 + 1)

/-- server.js `generateSingleChibi` (lines 155-225): a missing source photo
returns null at once; otherwise up to `MAX_RETRIES + 1` attempts are made
(`oracle` is the generation service), returning the first accepted public
path or null.  The result is paired with the number of attempts made. -/
def generateSingleChibi (photoExists : Bool) (oracle : Nat → GenAttempt)
    (recordId : String) (personIndex : Nat) : Option String × Nat :=
  if photoExists then
    chibiAttemptLoop oracle recordId personIndex (List.range (MAX_RETRIES + 1))
  else (none, 0)

/- ===== Background Segmenter (server.js `removeWhiteBackground`) ===== -/

/-- One RGBA pixel of the raw buffer produced by `sharp(...).ensureAlpha()`
(channel values 0..255; the interleaved byte layout of the source buffer is
modeled as a record per pixel). -/
structure Pixel where
  r : Nat
  g : Nat
  b : Nat
  a : Nat
deriving DecidableEq, Repr

/-- A decoded raw image: dimensions plus the pixel at each linear position
`y * width + x` (positions at or beyond `width * height` never arise in the
source, where the buffer has exactly `width * height` pixels). -/
structure RawImage where
  width : Nat
  height : Nat
  pix : Nat → Pixel

/-- The whitish threshold of server.js line 235. -/
def WHITE_THRESHOLD : Nat := 42

/-- Squared Euclidean RGB distance from pure white (server.js line 238
computes its square root; comparing the square against 42^2 = 1764 is
exact, because for integer d the IEEE double sqrt satisfies
sqrt d < 42 exactly when d < 1764). -/
def dist2White (p : Pixel) : Int :=
  ((255 : Int) - p.r) ^ 2 + ((255 : Int) - p.g) ^ 2 + ((255 : Int) - p.b) ^ 2

/-- server.js `isWhitish` (lines 236-239). -/
def isWhitish (img : RawImage) (pos : Nat) : Bool :=
  decide (dist2White (img.pix pos) < ((WHITE_THRESHOLD : Int)) ^ 2)

/-- Pointwise update of a mask (the source mutates a `Uint8Array`; mask
values: 0 = unvisited, 1 = background white, 2 = confirmed non-background). -/
def updMask (m : Nat → Nat) (pos v : Nat) : Nat → Nat :=
  fun q => if q = pos then v else m q

/-- Number of unvisited entries of a mask over the image positions; the
BFS termination measure counts these. -/
def maskZeros (w h : Nat) (m : Nat → Nat) : Nat :=
  ((List.range (w * h)).filter fun p => decide (m p = 0)).length

/-- The border seed queue of server.js lines 247-256: top and bottom rows
interleaved, then left and right columns interleaved. -/
def borderSeeds (w h : Nat) : List Nat :=
  ((List.range w).flatMap fun x => [x, (h - 1) * w + x]) ++
  ((List.range h).flatMap fun y => [y * w, y * w + w - 1])

/-- The BFS flood fill of server.js lines 259-278, processing the queue
front to back: out-of-range or visited positions are skipped; a reached
non-whitish pixel is marked 2 without propagating; a reached whitish pixel
is marked 1 and its unvisited 4-neighbors are enqueued.  The fuel argument
makes the worklist loop structurally recursive; `floodBFS` supplies
`5 * w * h + queue.length + 1` fuel, which exceeds the strictly decreasing
measure `5 * maskZeros + queue length` of the loop, so the fuel is never
exhausted (`floodFuel_measure` below proves this irrelevance). -/
def floodFuel (white : Nat → Bool) (w h : Nat) :
    Nat → (Nat → Nat) → List Nat → (Nat → Nat)
  | 0, m, _ => m
  | _ + 1, m, [] => m
  | fuel + 1, m, pos :: rest =>
    if w * h ≤ pos then floodFuel white w h fuel m rest
    else if m pos ≠ 0 then floodFuel white w h fuel m rest
    else if white pos = false then floodFuel white w h fuel (updMask m pos 2) rest
    else
      let m' := updMask m pos 1
      let x := pos % w
      let y := pos / w
      let ns :=
        (if 0 < x ∧ m' (pos - 1) = 0 then [pos - 1] else []) ++
        (if x < w - 1 ∧ m' (pos + 1) = 0 then [pos + 1] else []) ++
        (if 0 < y ∧ m' (pos - w) = 0 then [pos - w] else []) ++
        (if y < h - 1 ∧ m' (pos + w) = 0 then [pos + w] else [])
      floodFuel white w h fuel m' (rest ++ ns)

/-- The flood fill run with sufficient fuel. -/
def floodBFS (white : Nat → Bool) (w h : Nat) (m : Nat → Nat)
    (queue : List Nat) : Nat → Nat :=
  floodFuel white w h (5 * w * h + queue.length + 1) m queue

/-- The mask computed for an image: flood fill seeded from the borders on
the all-unvisited mask (server.js lines 243-278). -/
def computeMask (img : RawImage) : Nat → Nat :=
  floodBFS (isWhitish img) img.width img.height (fun _ => 0)
    (borderSeeds img.width img.height)

/-- The transparency pass of server.js lines 281-290: border-connected
background pixels (mask 1) get alpha 0; every other pixel is untouched. -/
def applyTransparency (w h : Nat) (m : Nat → Nat) (pix : Nat → Pixel) :
    Nat → Pixel :=
  fun pos =>
    if pos < w * h ∧ m pos = 1 then { pix pos with a := 0 } else pix pos

/-- Whether some in-bounds 4-neighbor of `pos` is not background
(server.js lines 296-302). -/
def hasNonBgNeighbor (w h : Nat) (m : Nat → Nat) (pos : Nat) : Bool :=
  let x := pos % w
  let y := pos / w
  let neighbors :=
    (if 0 < x then [pos - 1] else []) ++
    (if x < w - 1 then [pos + 1] else []) ++
    (if 0 < y then [pos - w] else []) ++
    (if y < h - 1 then [pos + w] else [])
  neighbors.any fun n => decide (m n ≠ 1)

/-- The anti-aliasing pass of server.js lines 293-307: a background pixel
adjacent to a non-background pixel gets the fixed 60/255 alpha. -/
def antiAlias (w h : Nat) (m : Nat → Nat) (pix : Nat → Pixel) :
    Nat → Pixel :=
  fun pos =>
    if pos < w * h ∧ m pos = 1 ∧ hasNonBgNeighbor w h m pos = true then
      { pix pos with a := 60 }
    else pix pos

/-- The pure pixel core of `removeWhiteBackground` (decode and re-encode
excluded): compute the mask, apply transparency, then anti-alias. -/
def removeWhiteBackgroundCore (img : RawImage) : RawImage :=
  let m := computeMask img
  { img with
    pix := antiAlias img.width img.height m
      (applyTransparency img.width img.height m img.pix) }

/-- The fallible steps of server.js `removeWhiteBackground` (lines 228-319)
chained: decoding to a raw buffer (`sharp(...).raw().toBuffer`), the pure
pixel core, PNG re-encoding with transparent-border trim
(`.png().trim({threshold: 5})`), and the 800px `resize`; the three sharp
library calls are oracles that may fail. -/
def rwbSteps (decode : List Nat → Option RawImage)
    (encodeTrim : RawImage → Option (List Nat))
    (resize : List Nat → Option (List Nat)) (imgBuffer : List Nat) :
    Option (List Nat) :=
  match decode imgBuffer with
  | none => none
  | some img =>
    match encodeTrim (removeWhiteBackgroundCore img) with
    | none => none
    | some trimmed => resize trimmed

/-- server.js `removeWhiteBackground` (lines 228-324): the whole body is
wrapped in try/catch; any internal failure returns the original input
buffer unchanged. -/
def removeWhiteBackground (decode : List Nat → Option RawImage)
    (encodeTrim : RawImage → Option (List Nat))
    (resize : List Nat → Option (List Nat)) (imgBuffer : List Nat) :
    List Nat :=
  match rwbSteps decode encodeTrim resize imgBuffer with
  | some out => out
  | none => imgBuffer

/- ===== Spec-side definition for the dedup refinement comparison ===== -/

/-- Modelled from the spec: the dedup overlap as the spec sentence words it
("counting tokens from the new description that appear as a substring of
the existing one") — the tokens come from the new description and are
sought inside the existing one.  Stated only for comparison with the
source's `isDuplicateOf`, which tokenizes the existing description and
seeks its tokens inside the new one. -/
def specDedupOverlap (existingDesc newDesc : String) : Nat :=
  tokenOverlap (jsLower (jsSubstring0 newDesc 60)) (jsLower (jsSubstring0 existingDesc 60))

/- ===== Concrete fixtures used by the evaluation theorems below ===== -/

/-- A 1x1 image whose only pixel is opaque black (far from white). -/
def blackImage1 : RawImage := ⟨1, 1, fun _ => ⟨0, 0, 0, 255⟩⟩

/-- A generation oracle whose every attempt throws with HTTP 500. -/
def chibiOracleThrew : Nat → GenAttempt := fun _ => .threw (some 500)

/-- A generation oracle whose every attempt returns one large inline image. -/
def chibiOracleBig : Nat → GenAttempt :=
  fun _ => .resp (some [⟨some (List.replicate 6000 0), none⟩])

/-- A model service where tier "alpha" always rate-limits (429) and tier
"beta" succeeds immediately. -/
def svcRateLimited : String → Nat → AttemptOutcome Nat := fun m _ =>
  if m = "alpha" then .fail ⟨some 429, "rate limited"⟩
  else if m = "beta" then .ok 7
  else .fail ⟨some 400, "bad"⟩

/-- A model service where every tier fails with a distinct non-429 error. -/
def svcAllBroken : String → Nat → AttemptOutcome Nat := fun m _ =>
  if m = "alpha" then .fail ⟨some 400, "alpha broken"⟩
  else if m = "beta" then .fail ⟨some 404, "beta broken"⟩
  else .fail ⟨some 500, "gamma broken"⟩

/-- Two present photos with distinct long person descriptions. -/
def twoPhotoFixture : List PhotoIn :=
  [.present "/uploads/p1.jpg" (some "abcdefghijklmnopqrstuvwxyz"),
   .present "/uploads/p2.jpg" (some "a b c d e f g hhhhhhhhhhhhhhhhh")]

/-- A synthesizer oracle succeeding only for person index 1. -/
def genOneFixture : String → String → String → Nat → Option String :=
  fun _ _ _ i => if i = 1 then some "/uploads/one.png" else none

/- ========================= Theorems ========================= -/

/-- When the delimiter occurs nowhere, the occurrence search fails. -/
theorem findSplit_eq_none (delim : List Char) :
    ∀ l, subAt delim l = false → findSplit delim l = none := by
  intro l
  induction l with
  | nil =>
    intro h
    simp only [subAt] at h
    simp [findSplit, h]
  | cons c t ih =>
    intro h
    simp only [subAt, Bool.or_eq_false_iff] at h
    simp [findSplit, h.1, ih h.2]

/-- JS `split` on a string not containing the delimiter returns the whole
string as the only fragment. -/
theorem jsSplitL_no_delim (delim s : List Char) (h : subAt delim s = false) :
    jsSplitL delim s = [s] := by
  unfold jsSplitL
  cases hl : s.length with
  | zero => simp [jsSplitFuel]
  | succ n => simp [jsSplitFuel, findSplit_eq_none delim s h]

/-- A prefix of a list with no leading whitespace has no leading
whitespace either. -/
theorem dropWhile_eq_self_of_prefix {p : Char → Bool} {r l : List Char}
    (hpre : r <+: l) (hl : l.dropWhile p = l) : r.dropWhile p = r := by
  rw [List.dropWhile_eq_self_iff] at hl ⊢
  intro hr
  have hlen : 0 < l.length := lt_of_lt_of_le hr hpre.length_le
  have h0 : r[0] = l[0] := hpre.getElem hr
  rw [List.get_eq_getElem, h0]
  have := hl hlen
  rwa [List.get_eq_getElem] at this

/-- JS `trim` is idempotent. -/
theorem jsTrimL_idem (l : List Char) : jsTrimL (jsTrimL l) = jsTrimL l := by
  have hdef : ∀ x : List Char, jsTrimL x = List.rdropWhile isWS (x.dropWhile isWS) := by
    intro x
    simp [jsTrimL, List.rdropWhile]
  have hA : (l.dropWhile isWS).dropWhile isWS = l.dropWhile isWS :=
    List.dropWhile_idempotent isWS (l := l)
  have hpre : List.rdropWhile isWS (l.dropWhile isWS) <+: l.dropWhile isWS :=
    List.rdropWhile_prefix isWS (l.dropWhile isWS)
  have hleft : (List.rdropWhile isWS (l.dropWhile isWS)).dropWhile isWS =
      List.rdropWhile isWS (l.dropWhile isWS) :=
    dropWhile_eq_self_of_prefix hpre hA
  rw [hdef l, hdef, hleft, List.rdropWhile_idempotent]

/-- C10: whenever the trimmed model response contains the `NO_PERSON`
sentinel anywhere, the per-photo parser returns the empty description list,
regardless of delimiter-separated paragraphs also present. -/
theorem scanner_sentinel_overrides_paragraphs (t : String)
    (h : strIncludes (jsTrim t) "NO_PERSON" = true) :
    describePersonsResult (some t) = [] := by
  simp [describePersonsResult, parsePersonsText, h]

/-- Evaluation of `scanner_sentinel_overrides_paragraphs` on a response
that also carries a delimiter and a paragraph longer than 20 characters. -/
theorem scanner_sentinel_overrides_paragraphs_witness :
    describePersonsResult
      (some "NO_PERSON here ---PERSON--- woman with long black hair and red scarf") = [] :=
  scanner_sentinel_overrides_paragraphs _ (by decide)

/-- C5 counterexample: a response with no delimiter and trimmed length
greater than 20 for which the parser yields zero descriptions, not one —
the `NO_PERSON` sentinel check fires first. -/
theorem parser_single_person_counterexample :
    strIncludes (jsTrim "NO_PERSON was detected in this scenery photo") DELIM = false ∧
    20 < (jsTrim "NO_PERSON was detected in this scenery photo").data.length ∧
    describePersonsResult (some "NO_PERSON was detected in this scenery photo") = [] ∧
    (describePersonsResult (some "NO_PERSON was detected in this scenery photo")).length ≠ 1 := by
  exact ⟨by decide, by decide, by decide, by decide⟩

/-- C5 amended: for every response whose trimmed text does not contain the
`NO_PERSON` sentinel, contains no delimiter, and exceeds 20 characters, the
parser returns the whole trimmed response as the single description; and
every description the parser ever returns is longer than 20 characters. -/
theorem parser_no_delim_single_person (t : String)
    (hnp : strIncludes (jsTrim t) "NO_PERSON" = false)
    (hnd : strIncludes (jsTrim t) DELIM = false)
    (hlen : 20 < (jsTrim t).data.length) :
    describePersonsResult (some t) = [jsTrim t] ∧
    ∀ s ∈ describePersonsResult (some t), 20 < s.data.length := by
  have hlen' : 20 < (jsTrimL t.data).length := hlen
  have hnd' : subAt DELIM.data (jsTrimL t.data) = false := hnd
  have hnp' : subAt "NO_PERSON".data (jsTrimL t.data) = false := hnp
  have hidem' : jsTrimL (jsTrimL t.data) = jsTrimL t.data := jsTrimL_idem t.data
  have hnl : ¬ ((jsTrimL t.data).length < 20) := by omega
  have hmain : describePersonsResult (some t) = [jsTrim t] := by
    simp [describePersonsResult, parsePersonsText, strIncludes, jsTrim,
      jsSplitL_no_delim _ _ hnd', hidem', hnp', hlen', hnl]
  refine ⟨hmain, ?_⟩
  intro s hs
  rw [hmain] at hs
  simp only [List.mem_singleton] at hs
  exact hs ▸ hlen

/-- Evaluation of `parser_no_delim_single_person` on a concrete
delimiter-free response. -/
theorem parser_no_delim_single_person_witness :
    describePersonsResult (some "man with short brown hair and a green coat") =
      [jsTrim "man with short brown hair and a green coat"] :=
  (parser_no_delim_single_person _ (by decide) (by decide) (by decide)).1

/-- A full roster absorbs any further descriptions unchanged. -/
theorem addPersons_full (photoIdx : Nat) (photoPath : String)
    (acc : List Person) (ds : List String) (h : MAX_PERSONS ≤ acc.length) :
    addPersons photoIdx photoPath acc ds = acc := by
  cases ds <;> simp [addPersons, h]

/-- C4 counterexample: the overlap in the direction the claim states
(tokens of the new description sought inside the accepted one) exceeds 5,
yet the scan still adds a second `Person` — the source counts in the
opposite direction, where the overlap is 0. -/
theorem dedup_direction_counterexample :
    5 < specDedupOverlap "abcdefghijklmnopqrstuvwxyz" "a b c d e f g hhhhhhhhhhhhhhhhh" ∧
    tokenOverlap (jsLower (jsSubstring0 "abcdefghijklmnopqrstuvwxyz" 60))
      (jsLower (jsSubstring0 "a b c d e f g hhhhhhhhhhhhhhhhh" 60)) = 0 ∧
    (scanPersonsInPhotos twoPhotoFixture).length = 2 ∧
    (scanPersonsInPhotos twoPhotoFixture).map Person.description =
      ["abcdefghijklmnopqrstuvwxyz", "a b c d e f g hhhhhhhhhhhhhhhhh"] := by
  exact ⟨by decide, by decide, by decide, by decide⟩

/-- C4 amended: in the multi-photo merge, whenever some already-accepted
description shares more than 5 first-60-chars lower-cased tokens with the
new description — tokens taken from the accepted (existing) description and
sought as substrings of the new one — the new description is dropped: the
roster continues exactly as if the description were absent. -/
theorem dedup_skips_overlapping_description (photoIdx : Nat)
    (photoPath : String) (acc : List Person) (d : String) (ds : List String)
    (h : ∃ ex ∈ acc, 5 < tokenOverlap (jsLower (jsSubstring0 ex.description 60))
      (jsLower (jsSubstring0 d 60))) :
    addPersons photoIdx photoPath acc (d :: ds) =
      addPersons photoIdx photoPath acc ds := by
  have hdup : isDuplicateOf acc d = true := by
    rw [isDuplicateOf, List.any_eq_true]
    obtain ⟨ex, hmem, hov⟩ := h
    exact ⟨ex, hmem, by simpa using hov⟩
  by_cases hlen : MAX_PERSONS ≤ acc.length
  · rw [addPersons, if_pos hlen, addPersons_full _ _ _ _ hlen]
  · rw [addPersons, if_neg hlen, if_pos hdup]

/-- Evaluation of `dedup_skips_overlapping_description` on a roster whose
accepted description floods the new one with shared single-letter tokens. -/
theorem dedup_skips_overlapping_description_witness :
    addPersons 1 "/uploads/p2.jpg"
      [⟨0, "/uploads/p1.jpg", "person1", "a a a a a a a and padding here"⟩]
      ["an apple and a canal boat trip"] =
    [⟨0, "/uploads/p1.jpg", "person1", "a a a a a a a and padding here"⟩] :=
  dedup_skips_overlapping_description 1 "/uploads/p2.jpg" _ _ [] (by decide)

/-- The orchestrator loop is the filterMap of the synthesizer over the
indexed roster. -/
theorem chibiLoop_eq_filterMap
    (genOne : String → String → String → Nat → Option String)
    (recordId : String) :
    ∀ (ps : List Person) (i : Nat),
      chibiLoop genOne recordId i ps =
        (ps.enumFrom i).filterMap fun ip =>
          genOne ip.2.photoPath ip.2.description recordId (ip.1 + 1) := by
  intro ps
  induction ps with
  | nil => intro i; simp [chibiLoop]
  | cons p rest ih =>
    intro i
    rw [chibiLoop]
    cases hg : genOne p.photoPath p.description recordId (i + 1) <;>
      simp [List.enumFrom, List.filterMap_cons, hg, ih (i + 1)]

/-- The dedup fold never grows the roster past `MAX_PERSONS`. -/
theorem addPersons_length_le (photoIdx : Nat) (photoPath : String) :
    ∀ (ds : List String) (acc : List Person), acc.length ≤ MAX_PERSONS →
      (addPersons photoIdx photoPath acc ds).length ≤ MAX_PERSONS := by
  intro ds
  induction ds with
  | nil => intro acc h; simpa [addPersons] using h
  | cons d rest ih =>
    intro acc h
    rw [addPersons]
    by_cases hfull : MAX_PERSONS ≤ acc.length
    · rw [if_pos hfull]; exact h
    · rw [if_neg hfull]
      by_cases hdup : isDuplicateOf acc d = true
      · rw [if_pos hdup]; exact ih acc h
      · rw [if_neg hdup]
        exact ih _ (by simp; omega)

/-- The photo fold never grows the roster past `MAX_PERSONS`. -/
theorem scanLoop_length_le :
    ∀ (valid : List (Nat × String × Option String)) (acc : List Person),
      acc.length ≤ MAX_PERSONS → (scanLoop acc valid).length ≤ MAX_PERSONS := by
  intro valid
  induction valid with
  | nil => intro acc h; simpa [scanLoop] using h
  | cons v rest ih =>
    intro acc h
    rw [scanLoop]
    by_cases hfull : MAX_PERSONS ≤ acc.length
    · rw [if_pos hfull]; exact h
    · rw [if_neg hfull]
      exact ih _ (addPersons_length_le _ _ _ _ h)

/-- The scanner's roster never exceeds `MAX_PERSONS` (= 3). -/
theorem scanPersonsInPhotos_length_le (photos : List PhotoIn) :
    (scanPersonsInPhotos photos).length ≤ MAX_PERSONS := by
  rw [scanPersonsInPhotos]
  cases hv : validPhotosOf photos with
  | nil => simp
  | cons v rest =>
    cases rest with
    | nil =>
      obtain ⟨idx, pth, resp⟩ := v
      by_cases he : (describePersonsResult resp).isEmpty
      · simp [he]
      · simp only [he, Bool.false_eq_true, if_false, List.length_map]
        calc ((describePersonsResult resp).take MAX_PERSONS).enum.length
            = ((describePersonsResult resp).take MAX_PERSONS).length := by
              simp
          _ ≤ MAX_PERSONS := by simp [List.length_take]
    | cons w rest' => exact scanLoop_length_le _ _ (by simp)

/-- C1: the orchestrator's result is exactly the list of non-null
synthesizer results in roster order (so a person whose synthesis returns
null is skipped and the remaining persons are still processed); its length
is at most the roster size, the roster size is at most 3, and an empty
roster yields an empty result. -/
theorem orchestrator_collects_non_null_results
    (genOne : String → String → String → Nat → Option String)
    (imagePaths : List PhotoIn) (recordId : String) :
    generateAllChibis genOne imagePaths recordId =
      ((scanPersonsInPhotos imagePaths).enum.filterMap fun ip =>
        genOne ip.2.photoPath ip.2.description recordId (ip.1 + 1)) ∧
    (generateAllChibis genOne imagePaths recordId).length ≤
      (scanPersonsInPhotos imagePaths).length ∧
    (scanPersonsInPhotos imagePaths).length ≤ MAX_PERSONS ∧
    (scanPersonsInPhotos imagePaths = [] →
      generateAllChibis genOne imagePaths recordId = []) := by
  have hmain : generateAllChibis genOne imagePaths recordId =
      ((scanPersonsInPhotos imagePaths).enum.filterMap fun ip =>
        genOne ip.2.photoPath ip.2.description recordId (ip.1 + 1)) := by
    rw [generateAllChibis]
    by_cases hz : (scanPersonsInPhotos imagePaths).length = 0
    · rw [List.length_eq_zero] at hz
      simp [hz]
    · simp only [hz, if_false]
      rw [chibiLoop_eq_filterMap, List.enum]
  refine ⟨hmain, ?_, scanPersonsInPhotos_length_le imagePaths, ?_⟩
  · rw [hmain]
    calc ((scanPersonsInPhotos imagePaths).enum.filterMap fun ip =>
          genOne ip.2.photoPath ip.2.description recordId (ip.1 + 1)).length
        ≤ (scanPersonsInPhotos imagePaths).enum.length :=
          List.length_filterMap_le _ _
      _ = (scanPersonsInPhotos imagePaths).length := by simp
  · intro hempty
    rw [hmain, hempty]
    simp

/-- Evaluation of `orchestrator_collects_non_null_results` on a two-person
roster whose second synthesis returns null: only the first asset path is
collected. -/
theorem orchestrator_collects_non_null_results_witness :
    generateAllChibis genOneFixture twoPhotoFixture "1760000000000" =
      ["/uploads/one.png"] :=
  ((orchestrator_collects_non_null_results genOneFixture twoPhotoFixture
    "1760000000000").1).trans (by decide)

/-- C2: with tiers [A, B, C], when every attempt against A fails rate
limited (429) and B succeeds at once, the run makes exactly 2 attempts
against A with the 2000ms backoff between them, 1 attempt against B, none
against C, and returns B's response. -/
theorem invoker_rate_limit_two_attempts_then_next {α : Type}
    (A B C : String) (svc : String → Nat → AttemptOutcome α)
    (e0 e1 : GemError) (r : α)
    (hA0 : svc A 0 = .fail e0) (h0 : e0.status = some 429)
    (hA1 : svc A 1 = .fail e1) (_h1 : e1.status = some 429)
    (hB : svc B 0 = .ok r)
    (hAB : A ≠ B) (hAC : A ≠ C) (hBC : B ≠ C) :
    callGeminiGo svc [A, B, C] none =
      (.ok r, [.att A 0, .slp 2000, .att A 1, .att B 0]) ∧
    countAtt [.att A 0, .slp 2000, .att A 1, .att B 0] A = 2 ∧
    countAtt [.att A 0, .slp 2000, .att A 1, .att B 0] B = 1 ∧
    countAtt [.att A 0, .slp 2000, .att A 1, .att B 0] C = 0 := by
  refine ⟨?_, ?_, ?_, ?_⟩
  · simp [callGeminiGo, hA0, hA1, hB, h0]
  · simp [countAtt, List.filter, hAB, Ne.symm hAB]
  · simp [countAtt, List.filter, hAB, Ne.symm hAB]
  · simp [countAtt, List.filter, hAC, hBC]

/-- Evaluation of `invoker_rate_limit_two_attempts_then_next` on the
concrete service `svcRateLimited`. -/
theorem invoker_rate_limit_two_attempts_then_next_witness :
    callGeminiGo svcRateLimited ["alpha", "beta", "gamma"] none =
      (.ok 7, [.att "alpha" 0, .slp 2000, .att "alpha" 1, .att "beta" 0]) :=
  (invoker_rate_limit_two_attempts_then_next "alpha" "beta" "gamma"
    svcRateLimited ⟨some 429, "rate limited"⟩ ⟨some 429, "rate limited"⟩ 7
    (by decide) rfl (by decide) rfl (by decide) (by decide) (by decide)
    (by decide)).1

/-- C3: with tiers [A, B, C] all failing with non-429 errors, every tier is
attempted exactly once (no second attempt anywhere) and the run fails with
the last tier's error. -/
theorem invoker_non_retryable_single_attempt_each {α : Type}
    (A B C : String) (svc : String → Nat → AttemptOutcome α)
    (eA eB eC : GemError)
    (hA : svc A 0 = .fail eA) (hB : svc B 0 = .fail eB)
    (hC : svc C 0 = .fail eC)
    (nA : eA.status ≠ some 429) (nB : eB.status ≠ some 429)
    (nC : eC.status ≠ some 429)
    (hAB : A ≠ B) (hAC : A ≠ C) (hBC : B ≠ C) :
    callGeminiGo svc [A, B, C] none =
      (.error eC, [.att A 0, .att B 0, .att C 0]) ∧
    countAtt [.att A 0, .att B 0, .att C 0] A = 1 ∧
    countAtt [.att A 0, .att B 0, .att C 0] B = 1 ∧
    countAtt [.att A 0, .att B 0, .att C 0] C = 1 := by
  refine ⟨?_, ?_, ?_, ?_⟩
  · simp [callGeminiGo, hA, hB, hC, nA, nB, nC]
  · simp [countAtt, List.filter, Ne.symm hAB, Ne.symm hAC]
  · simp [countAtt, List.filter, hAB, Ne.symm hBC]
  · simp [countAtt, List.filter, hAC, hBC]

/-- Evaluation of `invoker_non_retryable_single_attempt_each` on the
concrete service `svcAllBroken`: the surfaced error is the last tier's. -/
theorem invoker_non_retryable_single_attempt_each_witness :
    callGeminiGo svcAllBroken ["alpha", "beta", "gamma"] none =
      (.error ⟨some 500, "gamma broken"⟩,
       [.att "alpha" 0, .att "beta" 0, .att "gamma" 0]) :=
  (invoker_non_retryable_single_attempt_each "alpha" "beta" "gamma"
    svcAllBroken ⟨some 400, "alpha broken"⟩ ⟨some 404, "beta broken"⟩
    ⟨some 500, "gamma broken"⟩ (by decide) (by decide) (by decide)
    (by decide) (by decide) (by decide) (by decide) (by decide)
    (by decide)).1

/-- A parts list in which every inline payload is under 5000 bytes yields
no accepted image. -/
theorem firstImagePart_none (recordId : String) (personIndex : Nat) :
    ∀ parts : List GenPart,
      (∀ p ∈ parts, ∀ dat, p.inline = some dat → dat.length < 5000) →
      firstImagePart recordId personIndex parts = none := by
  intro parts
  induction parts with
  | nil => intro _; rfl
  | cons p ps ih =>
    intro h
    cases hin : p.inline with
    | none =>
      simp only [firstImagePart, hin]
      exact ih fun q hq => h q (List.mem_cons_of_mem p hq)
    | some dat =>
      simp only [firstImagePart, hin]
      rw [if_pos (h p (List.mem_cons_self p ps) dat hin)]
      exact ih fun q hq => h q (List.mem_cons_of_mem p hq)

/-- An accepted image names the deterministic public path and witnesses an
inline payload of at least 5000 bytes. -/
theorem firstImagePart_some (recordId : String) (personIndex : Nat) :
    ∀ (parts : List GenPart) (pth : String),
      firstImagePart recordId personIndex parts = some pth →
      pth = "/uploads/" ++ chibiFilename recordId personIndex ∧
      ∃ p ∈ parts, ∃ dat, p.inline = some dat ∧ 5000 ≤ dat.length := by
  intro parts
  induction parts with
  | nil => intro pth h; simp [firstImagePart] at h
  | cons p ps ih =>
    intro pth h
    cases hin : p.inline with
    | none =>
      simp only [firstImagePart, hin] at h
      obtain ⟨hp, q, hq, hdat⟩ := ih pth h
      exact ⟨hp, q, List.mem_cons_of_mem p hq, hdat⟩
    | some dat =>
      simp only [firstImagePart, hin] at h
      by_cases hsz : dat.length < 5000
      · rw [if_pos hsz] at h
        obtain ⟨hp, q, hq, hdat⟩ := ih pth h
        exact ⟨hp, q, List.mem_cons_of_mem p hq, hdat⟩
      · rw [if_neg hsz] at h
        refine ⟨(Option.some.inj h).symm, p, List.mem_cons_self p ps, dat, hin, ?_⟩
        omega

/-- The attempt loop makes at most as many attempts as it is given. -/
theorem chibiAttemptLoop_count_le (oracle : Nat → GenAttempt)
    (recordId : String) (personIndex : Nat) :
    ∀ attempts : List Nat,
      (chibiAttemptLoop oracle recordId personIndex attempts).2 ≤
        attempts.length := by
  intro attempts
  induction attempts with
  | nil => simp [chibiAttemptLoop]
  | cons a rest ih =>
    rw [chibiAttemptLoop]
    cases tryChibiOnce recordId personIndex (oracle a) <;> simp
    omega

/-- If no listed attempt yields an accepted image, the loop returns null. -/
theorem chibiAttemptLoop_none (oracle : Nat → GenAttempt)
    (recordId : String) (personIndex : Nat) :
    ∀ attempts : List Nat,
      (∀ a ∈ attempts, tryChibiOnce recordId personIndex (oracle a) = none) →
      (chibiAttemptLoop oracle recordId personIndex attempts).1 = none := by
  intro attempts
  induction attempts with
  | nil => intro _; rfl
  | cons a rest ih =>
    intro h
    rw [chibiAttemptLoop, h a (List.mem_cons_self a rest)]
    exact ih fun b hb => h b (List.mem_cons_of_mem a hb)

/-- If the loop returns a path, some listed attempt produced it. -/
theorem chibiAttemptLoop_some (oracle : Nat → GenAttempt)
    (recordId : String) (personIndex : Nat) :
    ∀ (attempts : List Nat) (pth : String),
      (chibiAttemptLoop oracle recordId personIndex attempts).1 = some pth →
      ∃ a ∈ attempts, tryChibiOnce recordId personIndex (oracle a) = some pth := by
  intro attempts
  induction attempts with
  | nil => intro pth h; simp [chibiAttemptLoop] at h
  | cons a rest ih =>
    intro pth h
    rw [chibiAttemptLoop] at h
    cases htry : tryChibiOnce recordId personIndex (oracle a) with
    | some q =>
      rw [htry] at h
      exact ⟨a, List.mem_cons_self a rest,
        htry.trans (congrArg some (Option.some.inj h))⟩
    | none =>
      rw [htry] at h
      obtain ⟨b, hb, hbt⟩ := ih pth h
      exact ⟨b, List.mem_cons_of_mem a hb, hbt⟩

/-- C8: the synthesizer makes at most `MAX_RETRIES + 1` (= 3) attempts; a
missing source photo returns null immediately; a returned path is always
the deterministic public path of `chibi-{recordId}-{personIndex}.png` and
witnesses an attempt whose response carried an inline payload of at least
5000 bytes; and when no attempt carries such a payload (the call threw, no
image part was returned, or every payload was under the floor), the
synthesizer returns null instead of raising. -/
theorem synthesizer_retry_and_acceptance (photoExists : Bool)
    (oracle : Nat → GenAttempt) (recordId : String) (personIndex : Nat) :
    (generateSingleChibi photoExists oracle recordId personIndex).2 ≤
      MAX_RETRIES + 1 ∧
    (photoExists = false →
      generateSingleChibi photoExists oracle recordId personIndex = (none, 0)) ∧
    (∀ pth, (generateSingleChibi photoExists oracle recordId personIndex).1 =
        some pth →
      pth = "/uploads/" ++ chibiFilename recordId personIndex ∧
      ∃ a, a < MAX_RETRIES + 1 ∧ ∃ parts, oracle a = .resp (some parts) ∧
        ∃ p ∈ parts, ∃ dat, p.inline = some dat ∧ 5000 ≤ dat.length) ∧
    ((∀ a, a < MAX_RETRIES + 1 → ∀ parts, oracle a = .resp (some parts) →
        ∀ p ∈ parts, ∀ dat, p.inline = some dat → dat.length < 5000) →
      (generateSingleChibi photoExists oracle recordId personIndex).1 = none) := by
  refine ⟨?_, ?_, ?_, ?_⟩
  · cases photoExists with
    | false => simp [generateSingleChibi]
    | true =>
      rw [generateSingleChibi, if_pos rfl]
      calc (chibiAttemptLoop oracle recordId personIndex
            (List.range (MAX_RETRIES + 1))).2
          ≤ (List.range (MAX_RETRIES + 1)).length :=
            chibiAttemptLoop_count_le _ _ _ _
        _ = MAX_RETRIES + 1 := List.length_range _
  · intro h
    rw [h, generateSingleChibi, if_neg (by simp)]
  · intro pth h
    cases photoExists with
    | false => simp [generateSingleChibi] at h
    | true =>
      rw [generateSingleChibi, if_pos rfl] at h
      obtain ⟨a, ha, htry⟩ := chibiAttemptLoop_some oracle recordId personIndex _ pth h
      have ha3 : a < MAX_RETRIES + 1 := List.mem_range.mp ha
      cases hg : oracle a with
      | threw s => rw [hg] at htry; exact absurd htry (by simp [tryChibiOnce])
      | resp op =>
        cases op with
        | none => rw [hg] at htry; exact absurd htry (by simp [tryChibiOnce])
        | some parts =>
          rw [hg] at htry
          have htry' : firstImagePart recordId personIndex parts = some pth := htry
          obtain ⟨hp, q, hq, dat, hdat, hsz⟩ :=
            firstImagePart_some recordId personIndex parts pth htry'
          exact ⟨hp, a, ha3, parts, hg, q, hq, dat, hdat, hsz⟩
  · intro hall
    cases photoExists with
    | false => simp [generateSingleChibi]
    | true =>
      rw [generateSingleChibi, if_pos rfl]
      refine chibiAttemptLoop_none oracle recordId personIndex _ fun a ha => ?_
      have ha3 : a < MAX_RETRIES + 1 := List.mem_range.mp ha
      cases hg : oracle a with
      | threw s => rfl
      | resp op =>
        cases op with
        | none => rfl
        | some parts =>
          exact firstImagePart_none recordId personIndex parts (hall a ha3 parts hg)

/-- Evaluation of `synthesizer_retry_and_acceptance`: a missing photo and an
always-throwing generation service both yield null, without an error. -/
theorem synthesizer_retry_and_acceptance_witness :
    generateSingleChibi false chibiOracleThrew "1760000000000" 2 = (none, 0) ∧
    (generateSingleChibi true chibiOracleThrew "1760000000000" 2).1 = none :=
  ⟨(synthesizer_retry_and_acceptance false chibiOracleThrew "1760000000000" 2).2.1
      rfl,
   (synthesizer_retry_and_acceptance true chibiOracleThrew "1760000000000" 2).2.2.2
      (by intro a _ parts h; simp [chibiOracleThrew] at h)⟩

/-- When no in-range pixel is whitish, the flood fill never marks a pixel
as background (mask value 1), whatever fuel, mask and queue it starts
from, provided the starting mask has no background marks. -/
theorem floodFuel_no_background (white : Nat → Bool) (w h : Nat)
    (hwhite : ∀ pos, pos < w * h → white pos = false) :
    ∀ (fuel : Nat) (m : Nat → Nat) (queue : List Nat),
      (∀ p, m p ≠ 1) → ∀ p, floodFuel white w h fuel m queue p ≠ 1 := by
  intro fuel
  induction fuel with
  | zero => intro m q hm p; exact hm p
  | succ n ih =>
    intro m q hm p
    cases q with
    | nil => exact hm p
    | cons pos rest =>
      rw [floodFuel]
      by_cases hout : w * h ≤ pos
      · rw [if_pos hout]; exact ih m rest hm p
      · rw [if_neg hout]
        by_cases hvis : m pos ≠ 0
        · rw [if_pos hvis]; exact ih m rest hm p
        · rw [if_neg hvis]
          have hwf : white pos = false := hwhite pos (by omega)
          rw [if_pos hwf]
          refine ih _ rest (fun q' => ?_) p
          by_cases hq : q' = pos
          · simp [updMask, hq]
          · simpa [updMask, hq] using hm q'

/-- C6: for a solid non-white image — every pixel strictly farther than the
threshold 42 from pure white — the border-seeded flood fill classifies zero
pixels as background, and consequently the segmenter core leaves every
pixel's alpha unchanged. -/
theorem segmenter_solid_nonwhite_no_background (img : RawImage)
    (hsolid : ∀ pos, pos < img.width * img.height →
      ((WHITE_THRESHOLD : Int)) ^ 2 < dist2White (img.pix pos)) :
    (∀ pos, computeMask img pos ≠ 1) ∧
    (∀ pos, ((removeWhiteBackgroundCore img).pix pos).a = (img.pix pos).a) := by
  have hwhite : ∀ pos, pos < img.width * img.height → isWhitish img pos = false := by
    intro pos hp
    simp only [isWhitish, decide_eq_false_iff_not, not_lt]
    exact le_of_lt (hsolid pos hp)
  have hmask : ∀ pos, computeMask img pos ≠ 1 := by
    intro pos
    exact floodFuel_no_background (isWhitish img) img.width img.height hwhite
      _ _ _ (fun _ => by simp) pos
  refine ⟨hmask, fun pos => ?_⟩
  simp [removeWhiteBackgroundCore, antiAlias, applyTransparency, hmask pos]

/-- Evaluation of `segmenter_solid_nonwhite_no_background` on a 1x1 opaque
black image. -/
theorem segmenter_solid_nonwhite_no_background_witness :
    computeMask blackImage1 0 ≠ 1 ∧
    ((removeWhiteBackgroundCore blackImage1).pix 0).a = (blackImage1.pix 0).a := by
  have h := segmenter_solid_nonwhite_no_background blackImage1 (by
    intro pos hp
    have : pos = 0 := by
      simpa [blackImage1] using hp
    subst this
    decide)
  exact ⟨h.1 0, h.2 0⟩

/-- C7: the segmenter is total towards its caller — when every fallible
step succeeds the processed bytes are returned, and when any internal step
fails the original input bytes are returned unchanged. -/
theorem segmenter_never_fails_outward (decode : List Nat → Option RawImage)
    (encodeTrim : RawImage → Option (List Nat))
    (resize : List Nat → Option (List Nat)) (imgBuffer : List Nat) :
    (rwbSteps decode encodeTrim resize imgBuffer = none →
      removeWhiteBackground decode encodeTrim resize imgBuffer = imgBuffer) ∧
    (∀ out, rwbSteps decode encodeTrim resize imgBuffer = some out →
      removeWhiteBackground decode encodeTrim resize imgBuffer = out) := by
  constructor
  · intro h
    rw [removeWhiteBackground, h]
  · intro out h
    rw [removeWhiteBackground, h]

/-- Evaluation of `segmenter_never_fails_outward` on a failing decoder: the
input bytes come back unchanged. -/
theorem segmenter_never_fails_outward_witness :
    removeWhiteBackground (fun _ => none) (fun _ => some []) (fun b => some b)
      [9, 8, 7] = [9, 8, 7] :=
  (segmenter_never_fails_outward (fun _ => none) (fun _ => some [])
    (fun b => some b) [9, 8, 7]).1 rfl

/-- The segmenter core changes only alpha: red, green and blue channels of
every pixel are preserved. -/
theorem core_preserves_rgb (img : RawImage) (q : Nat) :
    ((removeWhiteBackgroundCore img).pix q).r = (img.pix q).r ∧
    ((removeWhiteBackgroundCore img).pix q).g = (img.pix q).g ∧
    ((removeWhiteBackgroundCore img).pix q).b = (img.pix q).b := by
  simp only [removeWhiteBackgroundCore, antiAlias, applyTransparency]
  split_ifs <;> simp

/-- The whitish classification is insensitive to the segmenter core's alpha
rewrites. -/
theorem core_isWhitish (img : RawImage) :
    isWhitish (removeWhiteBackgroundCore img) = isWhitish img := by
  funext q
  obtain ⟨hr, hg, hb⟩ := core_preserves_rgb img q
  simp [isWhitish, dist2White, hr, hg, hb]

/-- The flood-fill mask of the segmenter core's output coincides with the
mask of its input. -/
theorem core_computeMask (img : RawImage) :
    computeMask (removeWhiteBackgroundCore img) = computeMask img := by
  have hw : (removeWhiteBackgroundCore img).width = img.width := rfl
  have hh : (removeWhiteBackgroundCore img).height = img.height := rfl
  rw [computeMask, computeMask, core_isWhitish, hw, hh]

/-- C9: a pixel the segmenter core left fully opaque is classified as
non-background by a second run of the core, and the second run leaves its
alpha at full opacity. -/
theorem segmenter_idempotent_on_opaque_pixels (img : RawImage) (pos : Nat)
    (hpos : pos < img.width * img.height)
    (hopq : ((removeWhiteBackgroundCore img).pix pos).a = 255) :
    computeMask (removeWhiteBackgroundCore img) pos ≠ 1 ∧
    ((removeWhiteBackgroundCore (removeWhiteBackgroundCore img)).pix pos).a = 255 := by
  have hm1 : computeMask img pos ≠ 1 := by
    intro h1
    rw [removeWhiteBackgroundCore] at hopq
    simp only [antiAlias, applyTransparency] at hopq
    by_cases hnb : hasNonBgNeighbor img.width img.height (computeMask img) pos = true
    · simp [hpos, h1, hnb] at hopq
    · simp [hpos, h1, hnb] at hopq
  refine ⟨by rw [core_computeMask]; exact hm1, ?_⟩
  have hmask2 := core_computeMask img
  rw [removeWhiteBackgroundCore]
  simp only [antiAlias, applyTransparency, hmask2]
  simp [hm1]
  exact hopq

/-- Evaluation of `segmenter_idempotent_on_opaque_pixels` on the opaque pixel of a
1x1 black image. -/
theorem segmenter_idempotent_on_opaque_pixels_witness :
    ((removeWhiteBackgroundCore (removeWhiteBackgroundCore blackImage1)).pix 0).a
      = 255 :=
  (segmenter_idempotent_on_opaque_pixels blackImage1 0 (by decide) (by decide)).2

/-- Marking an unvisited in-list position with a non-zero value strictly
decreases the number of positions a filter for zero retains. -/
theorem filter_updMask_length_lt {pos v : Nat} {m : Nat → Nat}
    (hv : v ≠ 0) (hm : m pos = 0) :
    ∀ l : List Nat, l.Nodup → pos ∈ l →
      ((l.filter fun p => decide (updMask m pos v p = 0)).length <
        (l.filter fun p => decide (m p = 0)).length) := by
  intro l
  induction l with
  | nil => simp
  | cons q t ih =>
    intro hnd hmem
    rcases List.mem_cons.mp hmem with hq | hq
    · subst hq
      have hnotin : pos ∉ t := (List.nodup_cons.mp hnd).1
      have hcong : t.filter (fun p => decide (updMask m pos v p = 0)) =
          t.filter (fun p => decide (m p = 0)) := by
        apply List.filter_congr
        intro p hp
        have hne : p ≠ pos := fun he => hnotin (he ▸ hp)
        simp [updMask, hne]
      rw [List.filter_cons, List.filter_cons, hcong]
      simp [updMask, hv, hm]
    · have hne : q ≠ pos := by
        rintro rfl
        exact (List.nodup_cons.mp hnd).1 hq
      have htail := ih (List.nodup_cons.mp hnd).2 hq
      rw [List.filter_cons, List.filter_cons]
      have hsame : decide (updMask m pos v q = 0) = decide (m q = 0) := by
        simp [updMask, hne]
      rw [hsame]
      cases decide (m q = 0) <;> simpa using (by omega : _)

/-- Marking an unvisited in-range pixel strictly decreases the unvisited
count. -/
theorem maskZeros_updMask_lt (w h pos v : Nat) (m : Nat → Nat)
    (hpos : pos < w * h) (hm : m pos = 0) (hv : v ≠ 0) :
    maskZeros w h (updMask m pos v) < maskZeros w h m :=
  filter_updMask_length_lt hv hm (List.range (w * h)) (List.nodup_range _)
    (List.mem_range.mpr hpos)

/-- The flood fill is fuel-insensitive above the measure
`5 * maskZeros + queue length`: the fuel `floodBFS` supplies therefore
computes the true fixed point of the worklist loop. -/
theorem floodFuel_sufficient (white : Nat → Bool) (w h : Nat) :
    ∀ (f₁ : Nat) (f₂ : Nat) (m : Nat → Nat) (queue : List Nat),
      5 * maskZeros w h m + queue.length ≤ f₁ → f₁ ≤ f₂ →
      floodFuel white w h f₂ m queue = floodFuel white w h f₁ m queue := by
  intro f₁
  induction f₁ with
  | zero =>
    intro f₂ m queue hb _
    have hq : queue = [] := List.length_eq_zero.mp (by omega)
    subst hq
    cases f₂ <;> rfl
  | succ n ih =>
    intro f₂ m queue hb hle
    cases queue with
    | nil => cases f₂ <;> rfl
    | cons pos rest =>
      obtain ⟨k, rfl⟩ : ∃ k, f₂ = k + 1 := ⟨f₂ - 1, by omega⟩
      have hb' : 5 * maskZeros w h m + rest.length + 1 ≤ n + 1 := by
        simp only [List.length_cons] at hb
        omega
      rw [floodFuel, floodFuel]
      by_cases hout : w * h ≤ pos
      · rw [if_pos hout, if_pos hout]
        exact ih k m rest (by omega) (by omega)
      · rw [if_neg hout, if_neg hout]
        by_cases hvis : m pos ≠ 0
        · rw [if_pos hvis, if_pos hvis]
          exact ih k m rest (by omega) (by omega)
        · rw [if_neg hvis, if_neg hvis]
          have hm0 : m pos = 0 := by omega
          by_cases hwf : white pos = false
          · rw [if_pos hwf, if_pos hwf]
            have hz : maskZeros w h (updMask m pos 2) < maskZeros w h m :=
              maskZeros_updMask_lt w h pos 2 m (by omega) hm0 (by omega)
            exact ih k _ rest (by omega) (by omega)
          · rw [if_neg hwf, if_neg hwf]
            dsimp only
            have hz : maskZeros w h (updMask m pos 1) < maskZeros w h m :=
              maskZeros_updMask_lt w h pos 1 m (by omega) hm0 (by omega)
            have hns :
                ((if 0 < pos % w ∧ updMask m pos 1 (pos - 1) = 0
                    then [pos - 1] else []) ++
                  (if pos % w < w - 1 ∧ updMask m pos 1 (pos + 1) = 0
                    then [pos + 1] else []) ++
                  (if 0 < pos / w ∧ updMask m pos 1 (pos - w) = 0
                    then [pos - w] else []) ++
                  (if pos / w < h - 1 ∧ updMask m pos 1 (pos + w) = 0
                    then [pos + w] else [])).length ≤ 4 := by
              simp only [List.length_append]
              split_ifs <;> simp
            refine ih k _ _ ?_ (by omega)
            rw [List.length_append]
            omega

end TravelDiary
